import Mathlib

/-!
Verification of the LiteX CLIC (Core-Local Interrupt Controller) software
layer: the register-access helpers of `litex/soc/software/include/clic.h`
and the demo driver logic of `litex/soc/software/demo/clic_demo.c`.

The CLIC register file is a byte-addressable memory-mapped region starting
at `CSR_CLIC_BASE`.  We model it as a total function from byte offset
(relative to the base) to the byte stored there.  Every helper in `clic.h`
is a read or write of a single byte at a computed offset; the demo file
adds file-scope instrumentation state (counters, last-serviced bookkeeping).
Machine bytes are Nat values reduced `% 256` on store; the 32-bit demo
counters are reduced `% 2 ^ 32` on increment.
-/

/-- CLIC register offsets, from `clic.h`. -/
def CLIC_INTIP_OFFSET : Nat := 0x000

/-- Offset of the interrupt-enable byte array. -/
def CLIC_INTIE_OFFSET : Nat := 0x400

/-- Offset of the interrupt-attribute byte array. -/
def CLIC_INTATTR_OFFSET : Nat := 0x800

/-- Offset of the interrupt-priority byte array. -/
def CLIC_INTPRIO_OFFSET : Nat := 0xC00

/-- Offset of the per-hart threshold register. -/
def CLIC_MITHRESHOLD_OFFSET : Nat := 0x1000

/-- Edge-trigger attribute bit (`CLIC_ATTR_TRIG_EDGE`). -/
def CLIC_ATTR_TRIG_EDGE : Nat := 0x02

/-- Positive-polarity attribute bit (`CLIC_ATTR_POL_POS`, effective value). -/
def CLIC_ATTR_POL_POS : Nat := 0x04

/-- The CLIC memory-mapped register file: byte offset from the base to the
byte value stored there. -/
structure ClicRegs where
  mem : Nat → Nat

/-- Store one byte (value reduced mod 256) at a byte offset. -/
def writeByte (s : ClicRegs) (addr v : Nat) : ClicRegs :=
  ⟨fun a => if a = addr then v % 256 else s.mem a⟩

/-- Register file with every byte zero; used as a concrete start state. -/
def clicZero : ClicRegs := ⟨fun _ => 0⟩

/-- Embeds `clic_get_intip` from `clic.h`. -/
def clic_get_intip (s : ClicRegs) (irq : Nat) : Nat :=
  s.mem (CLIC_INTIP_OFFSET + irq)

/-- Embeds `clic_set_intip` from `clic.h`. -/
def clic_set_intip (s : ClicRegs) (irq v : Nat) : ClicRegs :=
  writeByte s (CLIC_INTIP_OFFSET + irq) v

/-- Embeds `clic_get_intie` from `clic.h`. -/
def clic_get_intie (s : ClicRegs) (irq : Nat) : Nat :=
  s.mem (CLIC_INTIE_OFFSET + irq)

/-- Embeds `clic_set_intie` from `clic.h`. -/
def clic_set_intie (s : ClicRegs) (irq v : Nat) : ClicRegs :=
  writeByte s (CLIC_INTIE_OFFSET + irq) v

/-- Embeds `clic_get_intattr` from `clic.h`. -/
def clic_get_intattr (s : ClicRegs) (irq : Nat) : Nat :=
  s.mem (CLIC_INTATTR_OFFSET + irq)

/-- Embeds `clic_set_intattr` from `clic.h`. -/
def clic_set_intattr (s : ClicRegs) (irq v : Nat) : ClicRegs :=
  writeByte s (CLIC_INTATTR_OFFSET + irq) v

/-- Embeds `clic_get_intprio` from `clic.h`. -/
def clic_get_intprio (s : ClicRegs) (irq : Nat) : Nat :=
  s.mem (CLIC_INTPRIO_OFFSET + irq)

/-- Embeds `clic_set_intprio` from `clic.h`. -/
def clic_set_intprio (s : ClicRegs) (irq v : Nat) : ClicRegs :=
  writeByte s (CLIC_INTPRIO_OFFSET + irq) v

/-- Embeds `clic_get_mithreshold` from `clic.h`. -/
def clic_get_mithreshold (s : ClicRegs) (hart : Nat) : Nat :=
  s.mem (CLIC_MITHRESHOLD_OFFSET + hart * 0x1000)

/-- Embeds `clic_set_mithreshold` from `clic.h`. -/
def clic_set_mithreshold (s : ClicRegs) (hart v : Nat) : ClicRegs :=
  writeByte s (CLIC_MITHRESHOLD_OFFSET + hart * 0x1000) v

/-- Embeds `clic_enable_interrupt` from `clic.h`. -/
def clic_enable_interrupt (s : ClicRegs) (irq : Nat) : ClicRegs :=
  clic_set_intie s irq 1

/-- Embeds `clic_disable_interrupt` from `clic.h`. -/
def clic_disable_interrupt (s : ClicRegs) (irq : Nat) : ClicRegs :=
  clic_set_intie s irq 0

/-- Embeds `clic_is_pending` from `clic.h`. -/
def clic_is_pending (s : ClicRegs) (irq : Nat) : Bool :=
  clic_get_intip s irq != 0

/-- Embeds `clic_clear_pending` from `clic.h`. -/
def clic_clear_pending (s : ClicRegs) (irq : Nat) : ClicRegs :=
  clic_set_intip s irq 0

/-- Embeds `clic_set_pending` from `clic.h`. -/
def clic_set_pending (s : ClicRegs) (irq : Nat) : ClicRegs :=
  clic_set_intip s irq 1

/-- Embeds `clic_configure_interrupt` from `clic.h`: builds the attribute
byte by OR-ing the trigger and polarity bits, writes it, then writes the
priority byte. -/
def clic_configure_interrupt (s : ClicRegs) (irq p : Nat)
    (edge_triggered positive_polarity : Bool) : ClicRegs :=
  let attr0 : Nat := 0
  let attr1 := if edge_triggered then Nat.lor attr0 CLIC_ATTR_TRIG_EDGE else attr0
  let attr2 := if positive_polarity then Nat.lor attr1 CLIC_ATTR_POL_POS else attr1
  clic_set_intprio (clic_set_intattr s irq attr2) irq p

theorem clic_is_pending_set_pending (s : ClicRegs) (irq : Nat) :
    clic_is_pending (clic_set_pending s irq) irq = true := by
  simp [clic_is_pending, clic_set_pending, clic_get_intip, clic_set_intip,
    writeByte]

theorem clic_is_pending_clear_pending (s : ClicRegs) (irq : Nat) :
    clic_is_pending (clic_clear_pending s irq) irq = false := by
  simp [clic_is_pending, clic_clear_pending, clic_get_intip, clic_set_intip,
    writeByte]

/-- C6: for every line id and any starting state, `clic_is_pending` reads
true immediately after `clic_set_pending` and false immediately after
`clic_clear_pending`. -/
theorem clic_pending_readback_C6 (s : ClicRegs) (irq : Nat) :
    clic_is_pending (clic_set_pending s irq) irq = true ∧
    clic_is_pending (clic_clear_pending s irq) irq = false :=
  ⟨clic_is_pending_set_pending s irq, clic_is_pending_clear_pending s irq⟩

/-- C5: `clic_configure_interrupt` overwrites exactly the attribute and
priority bytes of the addressed line, leaving the pending and enable bytes
of that line unchanged, and `clic_disable_interrupt` clears the enable byte
while leaving the pending byte unchanged. -/
theorem clic_configure_frame_C5 (s : ClicRegs) (irq p : Nat)
    (e pol : Bool) :
    clic_is_pending (clic_configure_interrupt s irq p e pol) irq =
      clic_is_pending s irq ∧
    clic_get_intie (clic_configure_interrupt s irq p e pol) irq =
      clic_get_intie s irq ∧
    clic_get_intprio (clic_configure_interrupt s irq p e pol) irq = p % 256 ∧
    clic_get_intattr (clic_configure_interrupt s irq p e pol) irq =
      (if e then 2 else 0) + (if pol then 4 else 0) ∧
    (∀ a, a ≠ CLIC_INTATTR_OFFSET + irq → a ≠ CLIC_INTPRIO_OFFSET + irq →
      (clic_configure_interrupt s irq p e pol).mem a = s.mem a) ∧
    clic_get_intie (clic_disable_interrupt s irq) irq = 0 ∧
    clic_is_pending (clic_disable_interrupt s irq) irq =
      clic_is_pending s irq := by
  refine ⟨?_, ?_, ?_, ?_, ?_, ?_, ?_⟩
  · simp [clic_is_pending, clic_configure_interrupt, clic_get_intip,
      clic_set_intprio, clic_set_intattr, writeByte,
      CLIC_INTIP_OFFSET, CLIC_INTATTR_OFFSET, CLIC_INTPRIO_OFFSET]
  · simp [clic_get_intie, clic_configure_interrupt,
      clic_set_intprio, clic_set_intattr, writeByte,
      CLIC_INTIE_OFFSET, CLIC_INTATTR_OFFSET, CLIC_INTPRIO_OFFSET]
  · simp [clic_get_intprio, clic_configure_interrupt,
      clic_set_intprio, clic_set_intattr, writeByte]
  · have h1 : CLIC_INTATTR_OFFSET + irq ≠ CLIC_INTPRIO_OFFSET + irq := by
      simp [CLIC_INTATTR_OFFSET, CLIC_INTPRIO_OFFSET]
    cases e <;> cases pol <;>
      simp [clic_get_intattr, clic_configure_interrupt,
        clic_set_intprio, clic_set_intattr, writeByte, h1,
        CLIC_ATTR_TRIG_EDGE, CLIC_ATTR_POL_POS] <;> decide
  · intro a ha hp
    simp [clic_configure_interrupt, clic_set_intprio, clic_set_intattr,
      writeByte, ha, hp]
  · simp [clic_get_intie, clic_disable_interrupt, clic_set_intie, writeByte]
  · simp [clic_is_pending, clic_disable_interrupt, clic_get_intip,
      clic_set_intie, writeByte, CLIC_INTIP_OFFSET, CLIC_INTIE_OFFSET]

/-- C5 witness: the frame condition evaluated at a concrete state, line 3,
priority 9: byte 0 (the pending byte of line 0) is untouched. -/
theorem clic_configure_frame_C5_witness :
    (clic_configure_interrupt clicZero 3 9 true true).mem 0 = clicZero.mem 0 ∧
    clic_get_intprio (clic_configure_interrupt clicZero 3 9 true true) 3 = 9 :=
  ⟨(clic_configure_frame_C5 clicZero 3 9 true true).2.2.2.2.1 0
      (by decide) (by decide),
    by simpa using (clic_configure_frame_C5 clicZero 3 9 true true).2.2.1⟩

/-- C7: disabling an already-disabled line and clearing an already-clear
pending byte each leave the whole register file unchanged.  The operations
return only the new register state: there is no error channel, so no error
can be reported. -/
theorem clic_disable_clear_idempotent_C7 (s : ClicRegs) (irq : Nat) :
    (clic_get_intie s irq = 0 → clic_disable_interrupt s irq = s) ∧
    (clic_is_pending s irq = false → clic_clear_pending s irq = s) := by
  constructor
  · intro h
    cases s with
    | mk mem =>
      simp only [clic_disable_interrupt, clic_set_intie, writeByte,
        ClicRegs.mk.injEq]
      funext a
      by_cases ha : a = CLIC_INTIE_OFFSET + irq
      · subst ha
        simpa [clic_get_intie] using h.symm
      · simp [ha]
  · intro h
    have h0 : clic_get_intip s irq = 0 := by
      simpa [clic_is_pending] using h
    cases s with
    | mk mem =>
      simp only [clic_clear_pending, clic_set_intip, writeByte,
        ClicRegs.mk.injEq]
      funext a
      by_cases ha : a = CLIC_INTIP_OFFSET + irq
      · subst ha
        simpa [clic_get_intip] using h0.symm
      · simp [ha]

/-- C7 witness: on the all-zero register file, line 3 is disabled and not
pending, and both operations return the state unchanged. -/
theorem clic_disable_clear_idempotent_C7_witness :
    clic_disable_interrupt clicZero 3 = clicZero ∧
    clic_clear_pending clicZero 3 = clicZero :=
  ⟨(clic_disable_clear_idempotent_C7 clicZero 3).1 rfl,
    (clic_disable_clear_idempotent_C7 clicZero 3).2 rfl⟩

/-- Error taxonomy named by the specification. -/
inductive ClicError where
  | invalidLine
deriving DecidableEq

/-- Modelled from the spec: the specified behavior of `set_pending`, which
is missing from the code (the header operation is an unchecked register
write).  Per the spec it fails with `InvalidLine` when the id is at or
beyond the configured interrupt count N and otherwise performs the write. -/
def spec_set_pending (N id : Nat) (s : ClicRegs) : Except ClicError ClicRegs :=
  if id < N then Except.ok (clic_set_pending s id) else Except.error ClicError.invalidLine

/-- Modelled from the spec: the specified behavior of `configure`, failing
with `InvalidLine` when the id is at or beyond N. -/
def spec_configure (N id p : Nat) (e pol : Bool) (s : ClicRegs) :
    Except ClicError ClicRegs :=
  if id < N then Except.ok (clic_configure_interrupt s id p e pol)
  else Except.error ClicError.invalidLine

/-- C2 counterexample: take N = 32 and id = 32 (out of range).  The spec
demands the `InvalidLine` error, but the code operation has no error
channel at all: `clic_set_pending` silently performs the register write and
the state changes.  The claim that every out-of-range operation returns
`InvalidLine` to its caller is therefore false of the code. -/
theorem clic_invalid_line_C2_counterexample :
    32 ≤ 32 ∧
    spec_set_pending 32 32 clicZero = Except.error ClicError.invalidLine ∧
    clic_is_pending (clic_set_pending clicZero 32) 32 = true ∧
    clic_set_pending clicZero 32 ≠ clicZero := by
  refine ⟨le_refl 32, rfl, by decide, ?_⟩
  intro h
  have hm : (clic_set_pending clicZero 32).mem 32 = clicZero.mem 32 :=
    congrArg (fun r => r.mem 32) h
  simp [clic_set_pending, clic_set_intip, writeByte, clicZero,
    CLIC_INTIP_OFFSET] at hm

/-- C2 amended: the header operations perform no range check and carry no
error value.  For every id, including every id at or beyond any configured
count, `clic_set_pending` marks the line pending and
`clic_configure_interrupt` overwrites the priority register; the only
result either returns is the new register state. -/
theorem clic_no_range_check_C2_amended (s : ClicRegs) (irq p : Nat)
    (e pol : Bool) :
    clic_is_pending (clic_set_pending s irq) irq = true ∧
    clic_get_intprio (clic_configure_interrupt s irq p e pol) irq = p % 256 := by
  constructor
  · simp [clic_is_pending, clic_set_pending, clic_get_intip, clic_set_intip,
      writeByte]
  · simp [clic_get_intprio, clic_configure_interrupt, clic_set_intprio,
      clic_set_intattr, writeByte]

/-- File-scope state of `clic_demo.c`: the CLIC register file plus the
volatile instrumentation globals (`clic_interrupt_count`,
`clic_last_interrupt_id`, `clic_last_interrupt_priority`,
`clic_interrupt_cycles`) and the global interrupt-enable flag set by
`irq_setie`. -/
structure DemoState where
  regs : ClicRegs
  count : Nat → Nat
  last_id : Nat
  last_prio : Nat
  cycles : Nat
  ie : Bool

/-- Demo state with the all-zero register file and all counters zero. -/
def demoZero : DemoState := ⟨clicZero, fun _ => 0, 0, 0, 0, false⟩

/-- Embeds `clic_interrupt_handler` from `clic_demo.c`: bump the service
counter of the line, record the last id and priority, bump the cycle
counter, then clear the pending bit when the id is below the configured
count N.  Counters are 32-bit unsigned, hence the mod. -/
def clic_interrupt_handler (N : Nat) (s : DemoState) (id prio : Nat) :
    DemoState :=
  let count1 := fun j => if j = id then (s.count id + 1) % 2 ^ 32 else s.count j
  let s1 : DemoState :=
    { s with count := count1, last_id := id, last_prio := prio,
             cycles := (s.cycles + 1) % 2 ^ 32 }
  if id < N then { s1 with regs := clic_clear_pending s1.regs id } else s1

/-- C4: the handler instrumentation sets the service counter of the
serviced line to its old value plus one (exactly one, below the 32-bit
wrap), records the serviced id and priority, and touches no other counter. -/
theorem clic_handler_instrumentation_C4 (N : Nat) (s : DemoState)
    (id prio : Nat) (h : s.count id + 1 < 2 ^ 32) :
    (clic_interrupt_handler N s id prio).count id = s.count id + 1 ∧
    (clic_interrupt_handler N s id prio).last_id = id ∧
    (clic_interrupt_handler N s id prio).last_prio = prio ∧
    ∀ j, j ≠ id → (clic_interrupt_handler N s id prio).count j = s.count j := by
  have hmod : (s.count id + 1) % 2 ^ 32 = s.count id + 1 := Nat.mod_eq_of_lt h
  unfold clic_interrupt_handler
  by_cases hid : id < N <;> simp [hid, hmod] <;>
    exact ⟨by simpa using h, fun j hj hj2 => absurd hj2 hj⟩

/-- C4 witness: servicing line 3 with priority 7 from the zero state gives
counter one and records id 3, priority 7. -/
theorem clic_handler_instrumentation_C4_witness :
    (clic_interrupt_handler 32 demoZero 3 7).count 3 = 1 ∧
    (clic_interrupt_handler 32 demoZero 3 7).last_id = 3 ∧
    (clic_interrupt_handler 32 demoZero 3 7).last_prio = 7 := by
  have h := clic_handler_instrumentation_C4 32 demoZero 3 7 (by decide)
  exact ⟨h.1, h.2.1, h.2.2.1⟩

/-- The counter array access of the handler, with its bound made explicit:
`clic_interrupt_count` has N entries, so the increment at index i is in
bounds only when i is below N; otherwise the access faults. -/
def countIncr (N : Nat) (c : Nat → Nat) (i : Nat) : Option (Nat → Nat) :=
  if i < N then some (fun j => if j = i then (c i + 1) % 2 ^ 32 else c j)
  else none

/-- Embeds `clic_interrupt_handler` with the array bound checked, following
the statement order of the C body: the counter increment comes first and is
unguarded, so it is the step that can fault; the later `clic_clear_pending`
call is the only part guarded by the comparison of id against the count. -/
def clic_interrupt_handler_checked (N : Nat) (s : DemoState) (id prio : Nat) :
    Option DemoState :=
  match countIncr N s.count id with
  | none => none
  | some c =>
    let s1 : DemoState :=
      { s with count := c, last_id := id, last_prio := prio,
               cycles := (s.cycles + 1) % 2 ^ 32 }
    some (if id < N then { s1 with regs := clic_clear_pending s1.regs id } else s1)

/-- C9: the counter access of the handler is in bounds exactly under the
unenforced precondition that the id is below the configured count: the
checked handler succeeds if and only if id is below N, it then agrees with
the unchecked handler (whose guard protects only the pending-clear), and it
faults on every id at or beyond N because the counter increment precedes
any bounds check. -/
theorem clic_handler_oob_C9 (N : Nat) (s : DemoState) (id prio : Nat) :
    ((clic_interrupt_handler_checked N s id prio).isSome ↔ id < N) ∧
    (id < N → clic_interrupt_handler_checked N s id prio =
      some (clic_interrupt_handler N s id prio)) ∧
    (N ≤ id → clic_interrupt_handler_checked N s id prio = none) := by
  refine ⟨?_, ?_, ?_⟩
  · by_cases hid : id < N <;>
      simp [clic_interrupt_handler_checked, countIncr, hid]
  · intro hid
    simp [clic_interrupt_handler_checked, countIncr, hid,
      clic_interrupt_handler]
  · intro hid
    have hlt : ¬ id < N := by omega
    simp [clic_interrupt_handler_checked, countIncr, hlt]

/-- C9 witness: with N = 32, servicing id 40 faults on the counter access
while servicing id 3 succeeds and agrees with the unchecked handler. -/
theorem clic_handler_oob_C9_witness :
    clic_interrupt_handler_checked 32 demoZero 40 7 = none ∧
    clic_interrupt_handler_checked 32 demoZero 3 7 =
      some (clic_interrupt_handler 32 demoZero 3 7) :=
  ⟨(clic_handler_oob_C9 32 demoZero 40 7).2.2 (by decide),
    (clic_handler_oob_C9 32 demoZero 3 7).2.1 (by decide)⟩

/-- The second loop of `clic_init`: for each i below n, disable the
interrupt and then clear its pending bit, in ascending order of i. -/
def clic_init_loop (regs : ClicRegs) : Nat → ClicRegs
  | 0 => regs
  | n + 1 =>
    let r := clic_init_loop regs n
    clic_clear_pending (clic_disable_interrupt r n) n

/-- Embeds `clic_init` from `clic_demo.c`: zero the service counters of
the first N lines, disable and clear the first N lines, set the hart-0
threshold to 0, and enable global interrupts.  The function never writes
the priority or attribute registers. -/
def clic_init (N : Nat) (s : DemoState) : DemoState :=
  let count1 := fun i => if i < N then 0 else s.count i
  let regs1 := clic_init_loop s.regs N
  let regs2 := clic_set_mithreshold regs1 0 0
  { s with count := count1, regs := regs2, ie := true }

theorem clic_init_loop_mem (regs : ClicRegs) (n a : Nat) :
    (clic_init_loop regs n).mem a =
      if a < n ∨ (CLIC_INTIE_OFFSET ≤ a ∧ a < CLIC_INTIE_OFFSET + n) then 0
      else regs.mem a := by
  induction n with
  | zero =>
    rw [if_neg (by omega)]
    rfl
  | succ n ih =>
    show (writeByte
        (writeByte (clic_init_loop regs n) (CLIC_INTIE_OFFSET + n) 0)
        (CLIC_INTIP_OFFSET + n) 0).mem a = _
    simp only [writeByte]
    rw [ih]
    split_ifs <;>
      first
        | rfl
        | (exfalso
           simp only [CLIC_INTIP_OFFSET, CLIC_INTIE_OFFSET] at *
           omega)

/-- A demo state whose line-0 priority register holds 7, with everything
else zero: a possible pre-initialization hardware state. -/
def demoPrio7 : DemoState :=
  ⟨⟨fun a => if a = 0xC00 then 7 else 0⟩, fun _ => 0, 0, 0, 0, false⟩

/-- C3 counterexample: `clic_init` never writes the priority registers, so
from a pre-state whose line-0 priority byte is 7, line 0 (a valid line for
N = 32) still has priority 7, not 0, after initialization. -/
theorem clic_init_prio_C3_counterexample :
    clic_get_intprio (clic_init 32 demoPrio7).regs 0 = 7 ∧
    (0 : Nat) < 32 ∧ (7 : Nat) ≠ 0 := by
  refine ⟨?_, by decide, by decide⟩
  show (clic_set_mithreshold (clic_init_loop demoPrio7.regs 32) 0 0).mem
    (CLIC_INTPRIO_OFFSET + 0) = 7
  rw [clic_set_mithreshold, writeByte]
  show (if CLIC_INTPRIO_OFFSET + 0 = CLIC_MITHRESHOLD_OFFSET + 0 * 0x1000
    then 0 % 256 else (clic_init_loop demoPrio7.regs 32).mem
      (CLIC_INTPRIO_OFFSET + 0)) = 7
  rw [if_neg (by decide), clic_init_loop_mem]
  rw [if_neg (by decide)]
  rfl

/-- C3 amended: after `clic_init` with count N (N at most 0x400, the
capacity of the register layout), every line id below N has enable byte 0,
pending bit false, and service counter 0, and the hart-0 threshold is 0;
the priority byte of the line is left exactly as it was before the call. -/
theorem clic_init_state_C3_amended (N : Nat) (s : DemoState) (id : Nat)
    (hid : id < N) (hN : N ≤ 0x400) :
    clic_get_intie (clic_init N s).regs id = 0 ∧
    clic_is_pending (clic_init N s).regs id = false ∧
    (clic_init N s).count id = 0 ∧
    clic_get_mithreshold (clic_init N s).regs 0 = 0 ∧
    clic_get_intprio (clic_init N s).regs id = clic_get_intprio s.regs id := by
  refine ⟨?_, ?_, ?_, ?_, ?_⟩
  · show (clic_set_mithreshold (clic_init_loop s.regs N) 0 0).mem
      (CLIC_INTIE_OFFSET + id) = 0
    rw [clic_set_mithreshold, writeByte]
    simp only []
    by_cases h : CLIC_INTIE_OFFSET + id = CLIC_MITHRESHOLD_OFFSET + 0 * 0x1000
    · rw [if_pos h]
    · rw [if_neg h, clic_init_loop_mem, if_pos]
      right
      simp only [CLIC_INTIE_OFFSET]
      omega
  · show (clic_get_intip (clic_set_mithreshold (clic_init_loop s.regs N) 0 0)
      id != 0) = false
    have hm : (clic_set_mithreshold (clic_init_loop s.regs N) 0 0).mem
        (CLIC_INTIP_OFFSET + id) = 0 := by
      rw [clic_set_mithreshold, writeByte]
      simp only []
      by_cases h : CLIC_INTIP_OFFSET + id = CLIC_MITHRESHOLD_OFFSET + 0 * 0x1000
      · rw [if_pos h]
      · rw [if_neg h, clic_init_loop_mem, if_pos]
        left
        simp only [CLIC_INTIP_OFFSET]
        omega
    simp [clic_get_intip, hm]
  · simp [clic_init, hid]
  · show (clic_set_mithreshold (clic_init_loop s.regs N) 0 0).mem
      (CLIC_MITHRESHOLD_OFFSET + 0 * 0x1000) = 0
    rw [clic_set_mithreshold, writeByte]
    simp
  · show (clic_set_mithreshold (clic_init_loop s.regs N) 0 0).mem
      (CLIC_INTPRIO_OFFSET + id) = clic_get_intprio s.regs id
    rw [clic_set_mithreshold, writeByte]
    simp only []
    rw [if_neg (by simp only [CLIC_INTPRIO_OFFSET, CLIC_MITHRESHOLD_OFFSET]; omega),
      clic_init_loop_mem,
      if_neg (by simp only [CLIC_INTPRIO_OFFSET, CLIC_INTIE_OFFSET]; omega)]
    rfl

/-- C3 amended witness: initializing from the priority-7 pre-state with
N = 32 leaves line 3 disabled, not pending, with counter 0 and threshold 0,
and its priority byte equal to its pre-initialization value. -/
theorem clic_init_state_C3_amended_witness :
    clic_get_intie (clic_init 32 demoPrio7).regs 3 = 0 ∧
    clic_is_pending (clic_init 32 demoPrio7).regs 3 = false ∧
    (clic_init 32 demoPrio7).count 3 = 0 ∧
    clic_get_mithreshold (clic_init 32 demoPrio7).regs 0 = 0 ∧
    clic_get_intprio (clic_init 32 demoPrio7).regs 3 =
      clic_get_intprio demoPrio7.regs 3 :=
  clic_init_state_C3_amended 32 demoPrio7 3 (by decide) (by decide)

/-- Outcome of one latency trial of `test_interrupt_latency`. -/
inductive TrialResult where
  | sample (cycles : Nat)
  | timeout
deriving DecidableEq

/-- The latency sample a trial contributes: some cycle count on success,
none on timeout. -/
def latencySampleOf : TrialResult → Option Nat
  | TrialResult.sample c => some c
  | TrialResult.timeout => none

/-- Embeds the spin loop of `test_interrupt_latency`: starting from the
given cycle counter, keep incrementing while the interrupt counter is
still zero and the counter is below 10000.  The environment function
`handled` reports, for each value of the cycle counter at the moment the
condition is evaluated, whether the asynchronous handler has already run
(the interrupt counter is nonzero).  The fuel argument bounds the
recursion; the caller passes enough fuel for the loop to reach its cap. -/
def clicSpin (handled : Nat → Bool) : Nat → Nat → Nat
  | cycles, 0 => cycles
  | cycles, fuel + 1 =>
    if handled cycles = false ∧ cycles < 10000 then
      clicSpin handled (cycles + 1) fuel
    else cycles

/-- Embeds the per-iteration outcome logic of `test_interrupt_latency`:
run the spin loop from zero, then report a latency sample when the
interrupt counter is nonzero and a timeout otherwise. -/
def latencyTrialOutcome (handled : Nat → Bool) : TrialResult :=
  let c := clicSpin handled 0 10001
  if handled c = true then TrialResult.sample c else TrialResult.timeout

theorem clicSpin_no_service (handled : Nat → Bool)
    (h : ∀ x, x ≤ 10000 → handled x = false) :
    ∀ fuel c, c ≤ 10000 → 10000 ≤ c + fuel →
      clicSpin handled c fuel = 10000 := by
  intro fuel
  induction fuel with
  | zero =>
    intro c hc hf
    have : c = 10000 := by omega
    simp [clicSpin, this]
  | succ fuel ih =>
    intro c hc hf
    by_cases hlt : c < 10000
    · rw [clicSpin, if_pos ⟨h c hc, hlt⟩]
      exact ih (c + 1) (by omega) (by omega)
    · have : c = 10000 := by omega
      rw [clicSpin, if_neg (by omega)]
      exact this

/-- C8: a trial during which the handler never runs within the iteration
cap is reported as the distinct timeout outcome: it contributes no latency
sample and in particular is not the zero-latency success. -/
theorem clic_latency_timeout_C8 (handled : Nat → Bool)
    (h : ∀ x, x ≤ 10000 → handled x = false) :
    latencyTrialOutcome handled = TrialResult.timeout ∧
    latencySampleOf (latencyTrialOutcome handled) = none ∧
    latencyTrialOutcome handled ≠ TrialResult.sample 0 := by
  have hspin : clicSpin handled 0 10001 = 10000 :=
    clicSpin_no_service handled h 10001 0 (by omega) (by omega)
  have hout : latencyTrialOutcome handled = TrialResult.timeout := by
    unfold latencyTrialOutcome
    rw [hspin, if_neg]
    simp [h 10000 (le_refl 10000)]
  refine ⟨hout, by rw [hout]; rfl, by rw [hout]; simp⟩

/-- C8 witness: with a handler that never runs, the trial outcome is the
timeout constructor. -/
theorem clic_latency_timeout_C8_witness :
    latencyTrialOutcome (fun _ => false) = TrialResult.timeout :=
  (clic_latency_timeout_C8 (fun _ => false) (fun _ _ => rfl)).1

/-- Modelled from the spec: the threshold-gate blocking predicate of the
CLIC hardware, which is not part of the software sources.  A priority is
blocked when it is at or above the threshold, except that threshold 0
means no blocking at all (the `clic_init` comment reads: set threshold to
0, allow all priorities). -/
def blocked (p th : Nat) : Bool :=
  if th = 0 then false else decide (th ≤ p)

/-- Modelled from the spec: hardware eligibility of a line for dispatch on
hart 0.  A line is eligible when its enable byte is nonzero, its pending
byte is nonzero, and its priority is not blocked by the hart-0 threshold. -/
def eligible (regs : ClicRegs) (id : Nat) : Bool :=
  clic_get_intie regs id != 0 && clic_is_pending regs id &&
    ! blocked (clic_get_intprio regs id) (clic_get_mithreshold regs 0)

/-- C1: with a nonzero threshold a line is eligible exactly when it is
enabled, pending, and its priority is strictly below the threshold (so it
is blocked exactly when its priority is at or above the threshold); with
threshold 0 every enabled and pending line is eligible whatever its
priority, including priority 0. -/
theorem clic_threshold_gate_C1 (regs : ClicRegs) (id : Nat) :
    (clic_get_mithreshold regs 0 ≠ 0 →
      (eligible regs id = true ↔
        clic_get_intie regs id ≠ 0 ∧ clic_is_pending regs id = true ∧
          clic_get_intprio regs id < clic_get_mithreshold regs 0)) ∧
    (clic_get_mithreshold regs 0 = 0 →
      clic_get_intie regs id ≠ 0 → clic_is_pending regs id = true →
        eligible regs id = true) := by
  constructor
  · intro hth
    simp [eligible, blocked, clic_is_pending, hth]
    omega
  · intro hth hie hp
    simp only [clic_is_pending] at hp
    simp [eligible, blocked, clic_is_pending, hth, hie, hp]

/-- Register file used as a concrete dispatch scenario: line 5 is enabled,
pending, level-triggered (attribute byte 0) with priority 7, and the
hart-0 threshold is 0. -/
def wRegs : ClicRegs :=
  ⟨fun a => if a = 5 then 1 else if a = 0x400 + 5 then 1
    else if a = 0xC00 + 5 then 7 else 0⟩

/-- Demo state wrapping `wRegs` with zeroed instrumentation. -/
def wSt : DemoState := ⟨wRegs, fun _ => 0, 0, 0, 0, true⟩

/-- C1 witness: with threshold 0, the enabled and pending line 5 of the
concrete state is eligible even though the gate is `priority below
threshold` for nonzero thresholds. -/
theorem clic_threshold_gate_C1_witness :
    clic_get_mithreshold wRegs 0 = 0 ∧ eligible wRegs 5 = true :=
  ⟨by decide, (clic_threshold_gate_C1 wRegs 5).2 (by decide) (by decide)
    (by decide)⟩

/-- Modelled from the spec: one arbitration comparison of the hardware
arbiter, folding over candidate lines.  An eligible line replaces the
current best when its priority byte is numerically smaller; ties keep the
earlier (lower-id) line. -/
def pickBest (regs : ClicRegs) (acc : Option Nat) (id : Nat) : Option Nat :=
  if eligible regs id = true then
    match acc with
    | none => some id
    | some b =>
      if clic_get_intprio regs id < clic_get_intprio regs b then some id
      else some b
  else acc

/-- Modelled from the spec: the arbiter, which is hardware and not in the
software sources.  Among the lines 0 to N-1 it returns the eligible line
with the numerically smallest priority, lowest id on ties, or none. -/
def select_next (regs : ClicRegs) (N : Nat) : Option Nat :=
  (List.range N).foldl (pickBest regs) none

/-- Modelled from the spec: a line is edge-triggered when the edge bit of
its attribute byte is set. -/
def edgeTriggered (regs : ClicRegs) (id : Nat) : Bool :=
  Nat.land (clic_get_intattr regs id) CLIC_ATTR_TRIG_EDGE != 0

/-- Modelled from the spec: one poll cycle of the dispatch loop, with the
code handler `clic_interrupt_handler` as the delivery callback.  If the
arbiter selects a line, the handler runs with the line id and priority and
then the latch logic auto-clears the pending bit of an edge-triggered
line; a level-triggered pending bit is left to the handler. -/
def dispatchStep (N : Nat) (st : DemoState) : DemoState :=
  match select_next st.regs N with
  | none => st
  | some id =>
    let st1 := clic_interrupt_handler N st id (clic_get_intprio st.regs id)
    if edgeTriggered st1.regs id then
      { st1 with regs := clic_clear_pending st1.regs id }
    else st1

/-- Iterated poll cycles of the dispatch loop. -/
def iterSteps (N : Nat) : Nat → DemoState → DemoState
  | 0, st => st
  | k + 1, st => iterSteps N k (dispatchStep N st)

theorem foldl_pickBest_some (regs : ClicRegs) :
    ∀ (l : List Nat) (acc : Option Nat) (j : Nat),
      l.foldl (pickBest regs) acc = some j →
      acc = some j ∨ (j ∈ l ∧ eligible regs j = true) := by
  intro l
  induction l with
  | nil => intro acc j h; exact Or.inl h
  | cons x xs ih =>
    intro acc j h
    rcases ih (pickBest regs acc x) j h with h1 | h1
    · by_cases he : eligible regs x = true
      · cases acc with
        | none =>
          simp [pickBest, he] at h1
          right
          exact ⟨by simp [h1], by rw [← h1]; exact he⟩
        | some b =>
          simp only [pickBest, if_pos he] at h1
          by_cases hp : clic_get_intprio regs x < clic_get_intprio regs b
          · rw [if_pos hp] at h1
            have : x = j := Option.some.inj h1
            right
            exact ⟨by simp [this], by rw [← this]; exact he⟩
          · rw [if_neg hp] at h1
            exact Or.inl h1
      · simp only [pickBest, if_neg he] at h1
        exact Or.inl h1
    · right
      exact ⟨List.mem_cons_of_mem x h1.1, h1.2⟩

theorem select_next_some (regs : ClicRegs) (N j : Nat)
    (h : select_next regs N = some j) :
    j < N ∧ eligible regs j = true := by
  rcases foldl_pickBest_some regs (List.range N) none j h with h1 | h1
  · exact absurd h1 (by simp)
  · exact ⟨List.mem_range.mp h1.1, h1.2⟩

theorem eligible_pending (regs : ClicRegs) (id : Nat)
    (h : eligible regs id = true) : clic_is_pending regs id = true := by
  simp only [eligible, Bool.and_eq_true] at h
  exact h.1.2

theorem handler_regs_eq (N : Nat) (s : DemoState) (id prio : Nat) :
    (clic_interrupt_handler N s id prio).regs =
      if id < N then clic_clear_pending s.regs id else s.regs := by
  unfold clic_interrupt_handler
  by_cases h : id < N <;> simp [h]

theorem handler_count_eq (N : Nat) (s : DemoState) (id prio : Nat) :
    (clic_interrupt_handler N s id prio).count id =
      (s.count id + 1) % 2 ^ 32 := by
  unfold clic_interrupt_handler
  by_cases h : id < N <;> simp [h]

theorem handler_count_ne (N : Nat) (s : DemoState) (id prio j : Nat)
    (h : j ≠ id) :
    (clic_interrupt_handler N s id prio).count j = s.count j := by
  unfold clic_interrupt_handler
  by_cases hid : id < N <;> simp [hid, h]

theorem is_pending_clear_ne (s : ClicRegs) (j id : Nat) (h : j ≠ id) :
    clic_is_pending (clic_clear_pending s j) id = clic_is_pending s id := by
  have : CLIC_INTIP_OFFSET + id ≠ CLIC_INTIP_OFFSET + j := by
    simp only [CLIC_INTIP_OFFSET]
    omega
  simp [clic_is_pending, clic_clear_pending, clic_get_intip, clic_set_intip,
    writeByte, this]

theorem dispatch_services (N : Nat) (st : DemoState) (id : Nat)
    (h : select_next st.regs N = some id) :
    clic_is_pending (dispatchStep N st).regs id = false ∧
    (dispatchStep N st).count id = (st.count id + 1) % 2 ^ 32 := by
  have hid : id < N := (select_next_some st.regs N id h).1
  have hstep : dispatchStep N st =
      (if edgeTriggered
          (clic_interrupt_handler N st id (clic_get_intprio st.regs id)).regs
          id then
        { clic_interrupt_handler N st id (clic_get_intprio st.regs id) with
          regs := clic_clear_pending
            (clic_interrupt_handler N st id
              (clic_get_intprio st.regs id)).regs id }
      else clic_interrupt_handler N st id (clic_get_intprio st.regs id)) := by
    unfold dispatchStep
    rw [h]
  rw [hstep]
  by_cases hedge : edgeTriggered
      (clic_interrupt_handler N st id (clic_get_intprio st.regs id)).regs id
      = true
  · rw [if_pos hedge]
    exact ⟨clic_is_pending_clear_pending _ id, handler_count_eq N st id _⟩
  · rw [if_neg hedge]
    constructor
    · rw [handler_regs_eq, if_pos hid]
      exact clic_is_pending_clear_pending st.regs id
    · exact handler_count_eq N st id _

theorem dispatch_not_pending (N : Nat) (st : DemoState) (id : Nat)
    (h : clic_is_pending st.regs id = false) :
    (dispatchStep N st).count id = st.count id ∧
    clic_is_pending (dispatchStep N st).regs id = false := by
  cases hsel : select_next st.regs N with
  | none =>
    unfold dispatchStep
    rw [hsel]
    exact ⟨rfl, h⟩
  | some j =>
    have hj := select_next_some st.regs N j hsel
    have hjp : clic_is_pending st.regs j = true := eligible_pending _ _ hj.2
    have hne : j ≠ id := by
      intro e
      rw [e, h] at hjp
      exact Bool.noConfusion hjp
    have hstep : dispatchStep N st =
        (if edgeTriggered
            (clic_interrupt_handler N st j (clic_get_intprio st.regs j)).regs
            j then
          { clic_interrupt_handler N st j (clic_get_intprio st.regs j) with
            regs := clic_clear_pending
              (clic_interrupt_handler N st j
                (clic_get_intprio st.regs j)).regs j }
        else clic_interrupt_handler N st j (clic_get_intprio st.regs j)) := by
      unfold dispatchStep
      rw [hsel]
    have hpend1 : clic_is_pending
        (clic_interrupt_handler N st j (clic_get_intprio st.regs j)).regs id
        = false := by
      rw [handler_regs_eq]
      by_cases hjN : j < N
      · rw [if_pos hjN, is_pending_clear_ne st.regs j id hne]
        exact h
      · rw [if_neg hjN]
        exact h
    rw [hstep]
    by_cases hedge : edgeTriggered
        (clic_interrupt_handler N st j (clic_get_intprio st.regs j)).regs j
        = true
    · rw [if_pos hedge]
      refine ⟨handler_count_ne N st j _ id hne.symm, ?_⟩
      show clic_is_pending (clic_clear_pending
        (clic_interrupt_handler N st j (clic_get_intprio st.regs j)).regs j)
        id = false
      rw [is_pending_clear_ne _ j id hne]
      exact hpend1
    · rw [if_neg hedge]
      exact ⟨handler_count_ne N st j _ id hne.symm, hpend1⟩

theorem iterSteps_not_pending (N id : Nat) :
    ∀ (k : Nat) (st : DemoState), clic_is_pending st.regs id = false →
      (iterSteps N k st).count id = st.count id := by
  intro k
  induction k with
  | zero => intro st _; rfl
  | succ k ih =>
    intro st h
    have hd := dispatch_not_pending N st id h
    show (iterSteps N k (dispatchStep N st)).count id = st.count id
    rw [ih (dispatchStep N st) hd.2, hd.1]

/-- C10: when the arbiter selects a line, the code handler clears its
pending bit unconditionally (the attribute byte of the line is arbitrary,
so this holds for level-triggered lines exactly as for edge-triggered
ones); after the poll cycle the line is no longer pending, its service
counter has advanced by exactly one, and it is not serviced again in any
number of further poll cycles until a fresh set-pending. -/
theorem clic_level_one_shot_C10 (N : Nat) (st : DemoState) (id : Nat)
    (h : select_next st.regs N = some id) :
    clic_is_pending
      (clic_interrupt_handler N st id (clic_get_intprio st.regs id)).regs id
      = false ∧
    clic_is_pending (dispatchStep N st).regs id = false ∧
    (dispatchStep N st).count id = (st.count id + 1) % 2 ^ 32 ∧
    ∀ k, (iterSteps N k (dispatchStep N st)).count id =
      (dispatchStep N st).count id := by
  have hid : id < N := (select_next_some st.regs N id h).1
  have hsvc := dispatch_services N st id h
  refine ⟨?_, hsvc.1, hsvc.2, ?_⟩
  · rw [handler_regs_eq, if_pos hid]
    exact clic_is_pending_clear_pending st.regs id
  · intro k
    exact iterSteps_not_pending N id k (dispatchStep N st) hsvc.1

/-- C10 witness: in the concrete state, the arbiter selects the
level-triggered line 5; after one poll cycle its pending bit is clear and
its counter is one. -/
theorem clic_level_one_shot_C10_witness :
    select_next wSt.regs 32 = some 5 ∧
    clic_is_pending (dispatchStep 32 wSt).regs 5 = false ∧
    (dispatchStep 32 wSt).count 5 = (wSt.count 5 + 1) % 2 ^ 32 :=
  ⟨by decide, (clic_level_one_shot_C10 32 wSt 5 (by decide)).2.1,
    (clic_level_one_shot_C10 32 wSt 5 (by decide)).2.2.1⟩
